import Mathlib

/-!
Verification of the MediaRise Robot Console client (`robot_client.py`)
against its natural-language specification.

The development shallowly embeds the parts of the client that the claims
are about: the handshake format negotiation (line 127), the binary-message
format sniffing and dispatch of `receive_messages` (lines 231-326), the
text-message dispatch (lines 327-363), the capture and encode-and-send
loops of `send_audio` (lines 146-216), and the teardown `finally` block
(lines 382-396).  Byte strings are modelled as lists of naturals, file
writes as an effect list folded into a name-to-content map, and the two
cooperating asyncio tasks as explicit schedules (`Nat → Bool` oracles for
the shared stop flag and for send failures).
-/

namespace RobotClient

/-- A byte string (Python `bytes`): a list of byte values. -/
abbrev Bytes := List Nat

/-! ### Audio constants (robot_client.py lines 60-63) -/

/-- `sample_rate = 48000` (line 60). -/
def sample_rate : Nat := 48000

/-- `frame_size = sample_rate // 50` (line 62): 960 samples, one 20 ms frame. -/
def frame_size : Nat := sample_rate / 50

/-- `record_seconds = 5` (line 63). -/
def record_seconds : Nat := 5

/-- Duration of one captured frame in milliseconds: 960 samples at 48 kHz. -/
def frame_ms : Nat := frame_size * 1000 / sample_rate

/-- The capture window in milliseconds: `record_seconds` converted to ms. -/
def record_ms : Nat := record_seconds * 1000

/-! ### Handshake negotiation (lines 104 and 127) -/

/-- Python `str.lower()` as used on format names (all ASCII): lowercase
each character. -/
def lowered (s : String) : String := ⟨s.data.map Char.toLower⟩

/-- The `audio_format` entry of the `hello` dict (line 104): the client
requests MP3 responses.  `some` because Python dict access is partial. -/
def hello_audio_format : Option String := some "mp3"

/-- Line 127:
`server_audio_format = hello_response.get("audio_format", hello.get("audio_format", "opus"))`.
First argument: the request's `audio_format` entry; second: the reply's. -/
def server_audio_format (requested reply : Option String) : String :=
  reply.getD (requested.getD "opus")

/-! ### Binary format sniffing (lines 244-262) -/

/-- The ID3 tag marker `b"ID3"` (line 249). -/
def idSig : Bytes := [0x49, 0x44, 0x33]

/-- The Ogg container marker `b"OggS"` (line 260). -/
def oggSig : Bytes := [0x4F, 0x67, 0x67, 0x53]

/-- Lines 244-262: `detected_format` starts as `None`; only payloads of
length at least 3 are sniffed.  Inside that guard: an `ID3` prefix or an
MPEG frame sync (first byte `0xFF`, top three bits of the second byte set)
yields `"mp3"`; otherwise, for payloads of length at least 4, an `OggS`
prefix yields `"opus"`. -/
def detected_format (message : Bytes) : Option String :=
  if 3 ≤ message.length then
    if message.take 3 = idSig then some "mp3"
    else if 2 ≤ message.length ∧ message.getD 0 0 = 0xFF ∧
        (message.getD 1 0) &&& 0xE0 = 0xE0 then some "mp3"
    else if 4 ≤ message.length then
      if message.take 4 = oggSig then some "opus" else none
    else none
  else none

/-- Outcome of the classification prologue of the binary branch
(lines 239-270): the two decoder-selection booleans and whether the
format-mismatch warning of line 266 was printed. -/
structure BinClass where
  is_mp3 : Bool
  is_opus : Bool
  warned : Bool
  deriving DecidableEq, Repr

/-- Lines 239-270 given the sniffing outcome: `is_mp3`/`is_opus` start
from the lowercased negotiated format `low` (lines 239-240); when
sniffing yielded a format that differs from `low`, the warning of line
266 is printed and the sniffed format overrides both booleans
(lines 265-270). -/
def classifyWith (low : String) : Option String → BinClass
  | some d =>
      if d = low then
        { is_mp3 := low = "mp3", is_opus := low = "opus", warned := false }
      else
        { is_mp3 := d = "mp3", is_opus := d = "opus", warned := true }
  | none =>
      { is_mp3 := low = "mp3", is_opus := low = "opus", warned := false }

/-- The whole classification prologue of the binary branch
(lines 239-270). -/
def classify (fmt : String) (message : Bytes) : BinClass :=
  classifyWith (lowered fmt) (detected_format message)

/-- Observable effects of handling one binary message (lines 272-326):
whether the mismatch warning fired, the file writes performed (each an
`open(name, "wb")` followed by a single `write`), the PCM buffers written
to the output stream, and whether a decode error was logged. -/
structure BinEffects where
  warned : Bool
  writes : List (String × Bytes)
  played : List Bytes
  decodeErrorLogged : Bool
  deriving DecidableEq, Repr

/-- Lines 272-326, the body of the binary branch after classification.
`decode` models `decoder.decode`, returning `none` when the codec raises.
MP3 goes to `response.mp3`; Opus is decoded and played, a failed decode
is logged and the raw chunk saved to `response_unknown.bin`; with no
usable classification the negotiated format decides: Opus is tried (raw
chunk to `response_opus_error.bin` on failure), anything else is saved
under `"response." + lowered fmt`. -/
def handleBinary (fmt : String) (decode : Bytes → Option Bytes) (message : Bytes) :
    BinEffects :=
  if (classify fmt message).is_mp3 then
    { warned := (classify fmt message).warned
      writes := [("response.mp3", message)]
      played := []
      decodeErrorLogged := false }
  else if (classify fmt message).is_opus then
    match decode message with
    | some pcm =>
        { warned := (classify fmt message).warned
          writes := []
          played := [pcm]
          decodeErrorLogged := false }
    | none =>
        { warned := (classify fmt message).warned
          writes := [("response_unknown.bin", message)]
          played := []
          decodeErrorLogged := true }
  else if lowered fmt = "opus" then
    match decode message with
    | some pcm =>
        { warned := (classify fmt message).warned
          writes := []
          played := [pcm]
          decodeErrorLogged := false }
    | none =>
        { warned := (classify fmt message).warned
          writes := [("response_opus_error.bin", message)]
          played := []
          decodeErrorLogged := true }
  else
    { warned := (classify fmt message).warned
      writes := [("response." ++ lowered fmt, message)]
      played := []
      decodeErrorLogged := false }

/-! ### Text-message dispatch (lines 327-356) -/

/-- An inbound text message, as seen by `json.loads(message)` followed by
`data.get(...)` (lines 331-332).  `invalid`: `json.loads` raises (the
string is not valid JSON).  `nonObject`: valid JSON but not an object, so
`data.get` raises `AttributeError`.  `parsed`: a JSON object with its
`type`, `text` and `command` entries (absent entries are `none`). -/
inductive TextMsg
  | invalid
  | nonObject
  | parsed (type? text? command? : Option String)
  deriving DecidableEq, Repr

/-- A console render event produced by the text dispatch (lines 334-356). -/
inductive Render
  | stt (text : String)
  | llm (text : String)
  | helloAgain
  | systemNotice (command : String)
  | unknown (msg_type : Option String)
  deriving DecidableEq, Repr

/-- Lines 332-356: switch on `data.get("type")`; the `text` and `command`
fields default to `""` (`data.get("text", "")`); any unmatched type is
rendered as unknown with the full payload. -/
def renderParsed (type? text? command? : Option String) : Render :=
  if type? = some "stt" then .stt (text?.getD "")
  else if type? = some "llm" then .llm (text?.getD "")
  else if type? = some "hello" then .helloAgain
  else if type? = some "system" then .systemNotice (command?.getD "")
  else .unknown type?

/-! ### The receive loop (lines 218-363) -/

/-- One inbound websocket message: binary (`isinstance(message, bytes)`)
or text. -/
inductive InMsg
  | binary (b : Bytes)
  | text (t : TextMsg)
  deriving DecidableEq, Repr

/-- What one iteration of the `while not stop.is_set()` loop does with a
message.  `fatal` is true when an exception escapes the per-message
handling to the handlers of lines 358-363, which print, call `stop.set()`
and leave the loop. -/
structure StepResult where
  renders : List Render
  binEff : Option BinEffects
  fatal : Bool
  deriving DecidableEq, Repr

/-- Processing of a single received message (lines 231-356).  A binary
message runs the classification and dispatch of `handleBinary`, whose own
`try`/`except` blocks absorb decode errors, so it never escapes.  A text
message that is not a JSON object raises out of `json.loads`/`data.get`,
reaching the outer `except Exception` handler: `fatal`.  A parsed object
is rendered by `renderParsed` and never raises. -/
def receiveStep (fmt : String) (decode : Bytes → Option Bytes) : InMsg → StepResult
  | .binary b =>
      { renders := [], binEff := some (handleBinary fmt decode b), fatal := false }
  | .text .invalid => { renders := [], binEff := none, fatal := true }
  | .text .nonObject => { renders := [], binEff := none, fatal := true }
  | .text (.parsed t x c) =>
      { renders := [renderParsed t x c], binEff := none, fatal := false }

/-- One event at the `await websocket.recv()` call: a message arrives, the
connection closes (`websockets.ConnectionClosed` raised), or another
receive error is raised. -/
inductive RxEvent
  | msg (m : InMsg)
  | connectionClosed
  | recvError
  deriving DecidableEq, Repr

/-- Cumulative outcome of the receive loop: the per-message results in
order, and whether the loop exited through a handler that set the shared
stop flag (lines 358-363). -/
structure LoopResult where
  steps : List StepResult
  stopSet : Bool
  deriving DecidableEq, Repr

/-- The receive loop of lines 226-363 over a schedule of events.
`ConnectionClosed` and any other receive error are caught outside the
loop: the handler sets the stop flag and the loop is over.  A message
whose processing raises (`fatal`) reaches those same handlers.  Otherwise
the loop continues with the next event; an exhausted schedule means the
loop is still blocked in `recv` with the flag unset. -/
def receiveLoop (fmt : String) (decode : Bytes → Option Bytes) :
    List RxEvent → LoopResult
  | [] => { steps := [], stopSet := false }
  | .connectionClosed :: _ => { steps := [], stopSet := true }
  | .recvError :: _ => { steps := [], stopSet := true }
  | .msg m :: rest =>
      let r := receiveStep fmt decode m
      if r.fatal then { steps := [r], stopSet := true }
      else
        let l := receiveLoop fmt decode rest
        { steps := r :: l.steps, stopSet := l.stopSet }

/-! ### File-system effects

Every persisted artifact is produced by `open(name, "wb")` followed by a
single `f.write(chunk)`: mode `"wb"` truncates, so one write replaces the
file's whole content. -/

/-- Apply one truncating write to a name-to-content map. -/
def applyWrite (fs : String → Option Bytes) (w : String × Bytes) :
    String → Option Bytes :=
  fun name => if name = w.1 then some w.2 else fs name

/-- The file system after a list of truncating writes, oldest first,
starting from no files. -/
def fsAfter (writes : List (String × Bytes)) : String → Option Bytes :=
  writes.foldl applyWrite (fun _ => none)

/-- All file writes performed by a run of the receive loop, in order. -/
def loopWrites (r : LoopResult) : List (String × Bytes) :=
  r.steps.foldr
    (fun s acc => (match s.binEff with | some e => e.writes | none => []) ++ acc) []

/-! ### The capture loop (lines 146-191) -/

/-- The capture loop of lines 159-186:
`while not stop.is_set() and (time.monotonic() - start_ts) < record_seconds`,
reading one `frame_size`-sample frame per iteration and appending it to
`frames`.  Time is modelled by its idealisation: iteration `k` starts at
`k * frame_ms` milliseconds because each blocking `mic.read(frame_size)`
takes exactly one frame duration.  `mic k` is the PCM returned by the
k-th read and `stopC k` the value of the shared stop flag when iteration
k tests the loop condition. -/
def captureFrames (mic : Nat → Bytes) (stopC : Nat → Bool) (k : Nat) : List Bytes :=
  if h : stopC k = false ∧ k * frame_ms < record_ms then
    mic k :: captureFrames mic stopC (k + 1)
  else []
termination_by record_ms - k * frame_ms
decreasing_by
  have h1 : frame_ms = 20 := by decide
  have h2 : record_ms = 5000 := by decide
  simp only [h1, h2] at h ⊢
  omega

/-! ### The encode-and-send burst (lines 193-216) -/

/-- The `for pcm_raw in frames` loop of lines 194-214.  Each iteration
encodes one buffered frame and awaits its send.  `flagAt k` is the value
of the shared stop flag at the suspension point of the k-th send: the
loop body contains no test of the flag, so the parameter is received but
never consulted (that absence is the code's behaviour, lines 194-214).
`sendOk k` is false when the k-th `encoder.encode`/`websocket.send`
raises, on which the handler sets the flag and `break`s, the failed frame
undelivered.  The result is the list of delivered binary messages in
order. -/
def sendBurst (encode : Bytes → Bytes) (flagAt sendOk : Nat → Bool) :
    Nat → List Bytes → List Bytes
  | _, [] => []
  | k, f :: fs =>
      if sendOk k then encode f :: sendBurst encode flagAt sendOk (k + 1) fs
      else []

/-! ### Teardown (lines 382-396) -/

/-- The five statements of the teardown `finally` block, in program
order: `stop.set()`, `await websocket.close()`,
`await asyncio.gather(recv_task, return_exceptions=True)`,
`output_stream.stop()`, `output_stream.close()`. -/
inductive TdStep
  | setFlag
  | closeChannel
  | awaitRecvTask
  | stopOutput
  | closeOutput
  deriving DecidableEq, Repr

/-- The teardown `finally` block (lines 382-396), as the list of steps
that execute.  The block is a plain statement sequence with no per-step
guards: if `websocket.close()` raises (`closeRaises`), the exception
propagates out of the block and the remaining statements never run.
`recvTaskRaised` records whether the receive task ended with an
exception; `asyncio.gather(..., return_exceptions=True)` returns that
exception instead of raising, so it cannot interrupt the sequence and the
parameter does not influence the steps. -/
def teardown (closeRaises recvTaskRaised : Bool) : List TdStep :=
  TdStep.setFlag :: TdStep.closeChannel ::
    (if closeRaises then []
     else [TdStep.awaitRecvTask, TdStep.stopOutput, TdStep.closeOutput])

/-! ### Helper lemmas about sniffing and classification -/

theorem detected_format_id3 (rest : Bytes) :
    detected_format (idSig ++ rest) = some "mp3" := by
  simp [detected_format, idSig, List.take]

theorem detected_format_framesync (b c : Nat) (rest : Bytes)
    (h : b &&& 0xE0 = 0xE0) :
    detected_format (0xFF :: b :: c :: rest) = some "mp3" := by
  simp [detected_format, idSig, List.take, h]

theorem classify_detected_mp3 (fmt : String) (m : Bytes)
    (hd : detected_format m = some "mp3") :
    (classify fmt m).is_mp3 = true := by
  unfold classify
  rw [hd]
  by_cases h : ("mp3" : String) = lowered fmt
  · simp only [classifyWith, if_pos h, ← h]
    decide
  · simp only [classifyWith, if_neg h]
    decide

theorem classify_detected_mp3_warned (fmt : String) (m : Bytes)
    (hd : detected_format m = some "mp3") (hne : lowered fmt ≠ "mp3") :
    (classify fmt m).warned = true := by
  unfold classify
  rw [hd]
  have h : ¬ ("mp3" : String) = lowered fmt := fun hh => hne hh.symm
  simp only [classifyWith, if_neg h]

theorem classifyWith_opus_not_mp3 (low : String) (d? : Option String)
    (h : (classifyWith low d?).is_opus = true) :
    (classifyWith low d?).is_mp3 = false := by
  rcases d? with _ | d
  · simp only [classifyWith, decide_eq_true_eq] at h
    subst h
    decide
  · by_cases he : d = low
    · subst he
      simp [classifyWith] at h
      subst h
      decide
    · simp only [classifyWith, if_neg he, decide_eq_true_eq] at h
      subst h
      simp only [classifyWith, if_neg he]
      decide

theorem classify_opus_not_mp3 (fmt : String) (m : Bytes)
    (h : (classify fmt m).is_opus = true) :
    (classify fmt m).is_mp3 = false :=
  classifyWith_opus_not_mp3 (lowered fmt) (detected_format m) h

/-!
### C1 — ID3 payloads are MP3 regardless of negotiated encoding
-/

/-- C1: every binary message beginning with the three bytes `ID3` is
classified MP3 whatever the negotiated encoding; under any negotiated
encoding it is persisted to the fixed path `response.mp3` and nothing is
decoded or played; and when the negotiated encoding is `"opus"` the
mismatch warning is emitted. -/
theorem claim_C1 (rest : Bytes) (fmt : String) (decode : Bytes → Option Bytes) :
    detected_format (idSig ++ rest) = some "mp3" ∧
    (handleBinary fmt decode (idSig ++ rest)).writes
      = [("response.mp3", idSig ++ rest)] ∧
    (handleBinary fmt decode (idSig ++ rest)).played = [] ∧
    (handleBinary "opus" decode (idSig ++ rest)).warned = true := by
  have hd := detected_format_id3 rest
  have hm : ∀ g : String, (classify g (idSig ++ rest)).is_mp3 = true :=
    fun g => classify_detected_mp3 g _ hd
  refine ⟨hd, ?_, ?_, ?_⟩
  · simp [handleBinary, hm]
  · simp [handleBinary, hm]
  · simp [handleBinary, hm]
    exact classify_detected_mp3_warned "opus" _ hd (by decide)

/-!
### C2 — missing `audio_format` in the reply falls back to the request
-/

/-- C2: when the handshake acknowledgment lacks the `audio_format` field,
the negotiated encoding is the one the Hello message requested; in
particular a request of `"opus"` resolves to `"opus"`, and the request
the code actually sends (`"mp3"`, line 104) resolves to `"mp3"`. -/
theorem claim_C2 (requested : String) :
    server_audio_format (some requested) none = requested ∧
    server_audio_format (some "opus") none = "opus" ∧
    server_audio_format hello_audio_format none = "mp3" :=
  ⟨rfl, rfl, rfl⟩

/-!
### C4 — MPEG frame-sync sniffing
-/

/-- C4 counterexample: the claim says the frame-sync pattern needs only
the first two bytes, but the sniffing block sits under the guard
`len(message) >= 3` (line 245), so the two-byte payload `FF E0` is not
classified at all; with negotiated encoding `"opus"` it is fed to the
Opus decoder (here failing) instead of being saved as MP3. -/
theorem claim_C4_counterexample :
    detected_format [0xFF, 0xE0] = none ∧
    (handleBinary "opus" (fun _ => none) [0xFF, 0xE0]).writes
      = [("response_unknown.bin", [0xFF, 0xE0])] := by
  constructor
  · decide
  · decide

/-- C4 (amended): for every binary message of length at least three whose
first byte is `0xFF` and whose second byte has its top three bits set,
the classification is MP3 regardless of the negotiated encoding, and the
chunk is persisted to `response.mp3` without being decoded. -/
theorem claim_C4 (b c : Nat) (rest : Bytes) (h : b &&& 0xE0 = 0xE0)
    (fmt : String) (decode : Bytes → Option Bytes) :
    detected_format (0xFF :: b :: c :: rest) = some "mp3" ∧
    (handleBinary fmt decode (0xFF :: b :: c :: rest)).writes
      = [("response.mp3", 0xFF :: b :: c :: rest)] ∧
    (handleBinary fmt decode (0xFF :: b :: c :: rest)).played = [] := by
  have hd := detected_format_framesync b c rest h
  have hm : (classify fmt (0xFF :: b :: c :: rest)).is_mp3 = true :=
    classify_detected_mp3 fmt _ hd
  refine ⟨hd, ?_, ?_⟩ <;> simp [handleBinary, hm]

/-- Witness for C4 at the payload `FF FB 00`. -/
theorem claim_C4_witness :
    (0xFB &&& 0xE0 = 0xE0) ∧
    detected_format [0xFF, 0xFB, 0x00] = some "mp3" ∧
    (handleBinary "mp3" (fun _ => none) [0xFF, 0xFB, 0x00]).writes
      = [("response.mp3", [0xFF, 0xFB, 0x00])] := by
  refine ⟨by decide, ?_, ?_⟩
  · exact (claim_C4 0xFB 0x00 [] (by decide) "mp3" (fun _ => none)).1
  · exact (claim_C4 0xFB 0x00 [] (by decide) "mp3" (fun _ => none)).2.1

/-!
### C3 — what ends the session inside the receive loop
-/

/-- C3 counterexample: the claim says every anomaly other than transport
failure and channel closure — including a text message that is not valid
structured text — is absorbed without setting the cancellation flag or
exiting the loop.  In the code, `json.loads` of such a message raises and
the exception is caught only by the outer handler of lines 361-363, which
sets the flag and leaves the loop: the following message is never
processed. -/
theorem claim_C3_counterexample :
    (receiveStep "mp3" (fun _ => none) (.text .invalid)).fatal = true ∧
    (receiveLoop "mp3" (fun _ => none)
        [.msg (.text .invalid),
         .msg (.text (.parsed (some "stt") (some "hi") none))]).stopSet = true ∧
    (receiveLoop "mp3" (fun _ => none)
        [.msg (.text .invalid),
         .msg (.text (.parsed (some "stt") (some "hi") none))]).steps.length
      = 1 := by
  refine ⟨rfl, ?_, ?_⟩ <;> decide

/-- C3 (amended): within a session, transport failure, channel closure
and any exception escaping the per-message handling — in particular an
inbound text message that is not a JSON object — end the session by
setting the cancellation flag and exiting the loop; anomalies handled
inside the dispatch (parsed text of any type, including unrecognized
ones, and every binary message, decode failures included) are absorbed
locally: they never set the flag, and the loop goes on to the next
message. -/
theorem claim_C3 (fmt : String) (decode : Bytes → Option Bytes) :
    (∀ t x c, (receiveStep fmt decode (.text (.parsed t x c))).fatal = false) ∧
    (∀ b, (receiveStep fmt decode (.binary b)).fatal = false) ∧
    (receiveStep fmt decode (.text .invalid)).fatal = true ∧
    (∀ rest, (receiveLoop fmt decode (.connectionClosed :: rest)).stopSet = true) ∧
    (∀ rest, (receiveLoop fmt decode (.recvError :: rest)).stopSet = true) ∧
    (∀ t x c rest,
        receiveLoop fmt decode (.msg (.text (.parsed t x c)) :: rest)
          = { steps := receiveStep fmt decode (.text (.parsed t x c))
                :: (receiveLoop fmt decode rest).steps,
              stopSet := (receiveLoop fmt decode rest).stopSet }) ∧
    (∀ b rest,
        receiveLoop fmt decode (.msg (.binary b) :: rest)
          = { steps := receiveStep fmt decode (.binary b)
                :: (receiveLoop fmt decode rest).steps,
              stopSet := (receiveLoop fmt decode rest).stopSet }) := by
  refine ⟨fun t x c => rfl, fun b => rfl, rfl, fun rest => rfl, fun rest => rfl,
    fun t x c rest => ?_, fun b rest => ?_⟩ <;> simp [receiveLoop, receiveStep]

/-!
### C7 — teardown step execution
-/

/-- C7 counterexample: the claim says each teardown step runs exactly
once even if an earlier step reports an error.  The `finally` block has
no per-step guards, so when `websocket.close()` raises, awaiting the
receive task and stopping and closing the output stream never happen. -/
theorem claim_C7_counterexample :
    (teardown true false).count TdStep.awaitRecvTask = 0 ∧
    (teardown true false).count TdStep.stopOutput = 0 ∧
    teardown true false = [TdStep.setFlag, TdStep.closeChannel] := by
  refine ⟨?_, ?_, ?_⟩ <;> decide

/-- C7 (amended): when no teardown step itself raises, each of the steps
— set the cancellation flag, close the channel, await the receive task's
terminal state, stop the audio output, release it — executes exactly
once, in program order, regardless of whether the receive task ended
with an exception (`gather(..., return_exceptions=True)` swallows it);
but a teardown step that itself raises skips all following steps. -/
theorem claim_C7 (recvTaskRaised : Bool) :
    teardown false recvTaskRaised
      = [TdStep.setFlag, TdStep.closeChannel, TdStep.awaitRecvTask,
         TdStep.stopOutput, TdStep.closeOutput] ∧
    (∀ s : TdStep, (teardown false recvTaskRaised).count s = 1) ∧
    teardown true recvTaskRaised = [TdStep.setFlag, TdStep.closeChannel] := by
  refine ⟨rfl, ?_, rfl⟩
  intro s
  cases s <;> rfl

/-!
### C8 — Opus decode failure is non-fatal
-/

/-- C8: when a binary message is classified as Opus and the decode
fails, the error is logged, nothing is played, the raw chunk is
persisted to the diagnostic file `response_unknown.bin`, the step is not
fatal, and the receive loop continues with the remaining messages
without the session ending. -/
theorem claim_C8 (fmt : String) (decode : Bytes → Option Bytes) (msg : Bytes)
    (hopus : (classify fmt msg).is_opus = true) (hfail : decode msg = none)
    (rest : List RxEvent) :
    (handleBinary fmt decode msg).writes = [("response_unknown.bin", msg)] ∧
    (handleBinary fmt decode msg).played = [] ∧
    (handleBinary fmt decode msg).decodeErrorLogged = true ∧
    (receiveStep fmt decode (.binary msg)).fatal = false ∧
    (receiveLoop fmt decode (.msg (.binary msg) :: rest)).stopSet
      = (receiveLoop fmt decode rest).stopSet := by
  have hm : (classify fmt msg).is_mp3 = false := classify_opus_not_mp3 fmt msg hopus
  refine ⟨?_, ?_, ?_, rfl, ?_⟩ <;>
    simp [handleBinary, hm, hopus, hfail, receiveLoop, receiveStep]

/-- Witness for C8: negotiated encoding `"opus"`, an unclassifiable
3-byte payload, and a decoder that rejects it. -/
theorem claim_C8_witness :
    (classify "opus" [1, 2, 3]).is_opus = true ∧
    ((fun _ => none : Bytes → Option Bytes) [1, 2, 3] = none) ∧
    (handleBinary "opus" (fun _ => none) [1, 2, 3]).writes
      = [("response_unknown.bin", [1, 2, 3])] ∧
    (receiveLoop "opus" (fun _ => none) [.msg (.binary [1, 2, 3])]).stopSet
      = false := by
  refine ⟨by decide, rfl, ?_, ?_⟩
  · exact (claim_C8 "opus" (fun _ => none) [1, 2, 3] (by decide) rfl []).1
  · exact (claim_C8 "opus" (fun _ => none) [1, 2, 3] (by decide) rfl []).2.2.2.2

/-!
### C5, C6, C10 — capture count, send order, and the flag-blind burst
-/

/-- With the stop flag never set, the capture loop starting at iteration
`k` reads exactly the frames `k, k+1, …, 249`: iteration `k` runs iff
`k * 20 < 5000` ms. -/
theorem captureFrames_noStop (mic : Nat → Bytes) :
    ∀ n k, 250 - k = n →
      captureFrames mic (fun _ => false) k
        = (List.range n).map (fun i => mic (k + i)) := by
  have hfm : frame_ms = 20 := by decide
  have hrm : record_ms = 5000 := by decide
  intro n
  induction n with
  | zero =>
      intro k hk
      rw [captureFrames, dif_neg]
      · simp
      · rw [hfm, hrm]
        rintro ⟨-, hlt⟩
        omega
  | succ n ih =>
      intro k hk
      rw [captureFrames, dif_pos ⟨rfl, by rw [hfm, hrm]; omega⟩]
      rw [ih (k + 1) (by omega)]
      rw [List.range_succ_eq_map, List.map_cons, List.map_map]
      refine congrArg₂ _ (by rw [Nat.add_zero]) ?_
      refine List.map_congr_left ?_
      intro i _
      simp only [Function.comp]
      exact congrArg mic (by omega)

/-- The burst loop transmits every buffered frame, encoded, when no send
raises. -/
theorem sendBurst_all (encode : Bytes → Bytes) (flagAt : Nat → Bool) :
    ∀ (fs : List Bytes) (k : Nat),
      sendBurst encode flagAt (fun _ => true) k fs = fs.map encode := by
  intro fs
  induction fs with
  | nil => intro k; rfl
  | cons f fs ih => intro k; simp [sendBurst, ih]

/-- Whatever the send-failure schedule, the transmitted messages are a
prefix of the encodings of the buffered frames in capture order. -/
theorem sendBurst_isPrefix (encode : Bytes → Bytes) (flagAt sendOk : Nat → Bool) :
    ∀ (fs : List Bytes) (k : Nat),
      sendBurst encode flagAt sendOk k fs <+: fs.map encode := by
  intro fs
  induction fs with
  | nil => intro k; simp [sendBurst]
  | cons f fs ih =>
      intro k
      rw [sendBurst]
      by_cases h : sendOk k
      · rw [if_pos h]
        obtain ⟨t, ht⟩ := ih (k + 1)
        exact ⟨t, by rw [List.map_cons, ← ht, List.cons_append]⟩
      · rw [if_neg h]
        exact ⟨(f :: fs).map encode, by simp⟩

/-- The burst's output does not depend on the stop-flag schedule. -/
theorem sendBurst_flag_blind (encode : Bytes → Bytes) (flagAt flagAt' sendOk : Nat → Bool) :
    ∀ (fs : List Bytes) (k : Nat),
      sendBurst encode flagAt sendOk k fs = sendBurst encode flagAt' sendOk k fs := by
  intro fs
  induction fs with
  | nil => intro k; rfl
  | cons f fs ih => intro k; rw [sendBurst, sendBurst, ih]

/-- C5: an undisturbed 5-second capture phase at 20 ms per frame captures
exactly 250 frames, and with no send failure exactly 250 encoded frames
are transmitted, each the encoding of the corresponding captured frame in
capture order. -/
theorem claim_C5 (mic : Nat → Bytes) (encode : Bytes → Bytes) (flagAt : Nat → Bool) :
    (captureFrames mic (fun _ => false) 0).length = 250 ∧
    sendBurst encode flagAt (fun _ => true) 0 (captureFrames mic (fun _ => false) 0)
      = (captureFrames mic (fun _ => false) 0).map encode ∧
    (sendBurst encode flagAt (fun _ => true) 0
        (captureFrames mic (fun _ => false) 0)).length = 250 := by
  have hc := captureFrames_noStop mic 250 0 rfl
  have hs := sendBurst_all encode flagAt (captureFrames mic (fun _ => false) 0) 0
  refine ⟨?_, hs, ?_⟩
  · rw [hc]; simp
  · rw [hs, List.length_map, hc]; simp

/-- C6: for every sequence of buffered frames, the transmitted binary
messages are exactly the encodings of the frames in capture order when no
send raises; and under any send-failure schedule the transmitted sequence
is a prefix of that encoding sequence — never a reordering or
duplication. -/
theorem claim_C6 (frames : List Bytes) (encode : Bytes → Bytes)
    (flagAt sendOk : Nat → Bool) :
    sendBurst encode flagAt (fun _ => true) 0 frames = frames.map encode ∧
    sendBurst encode flagAt sendOk 0 frames <+: frames.map encode :=
  ⟨sendBurst_all encode flagAt frames 0, sendBurst_isPrefix encode flagAt sendOk frames 0⟩

/-- C10: the encode-and-transmit burst never observes the shared stop
flag: its output is the same under any two flag schedules, and whatever
the flag does — even when set right after the capture window, for any
capture stop schedule — every buffered frame is encoded and transmitted
as long as no send raises. -/
theorem claim_C10 (mic : Nat → Bytes) (encode : Bytes → Bytes)
    (stopC flagAt flagAt' sendOk : Nat → Bool) :
    (∀ (fs : List Bytes) (k : Nat),
        sendBurst encode flagAt sendOk k fs = sendBurst encode flagAt' sendOk k fs) ∧
    sendBurst encode flagAt (fun _ => true) 0 (captureFrames mic stopC 0)
      = (captureFrames mic stopC 0).map encode :=
  ⟨fun fs k => sendBurst_flag_blind encode flagAt flagAt' sendOk fs k,
   sendBurst_all encode flagAt (captureFrames mic stopC 0) 0⟩

/-!
### C9 — `response.mp3` holds only the most recent MP3 chunk
-/

/-- A payload whose first three bytes are the ID3 marker is sniffed as
MP3, stated via `List.take`. -/
theorem detected_format_of_take_id3 (m : Bytes) (h : m.take 3 = idSig) :
    detected_format m = some "mp3" := by
  rcases m with _ | ⟨a, _ | ⟨b, _ | ⟨c, rest⟩⟩⟩ <;>
    simp [idSig, List.take] at h
  obtain ⟨ha, hb, hc⟩ := h
  subst ha; subst hb; subst hc
  exact detected_format_id3 rest

/-- A session consisting of ID3-tagged binary messages produces exactly
one `response.mp3` write per message, in arrival order. -/
theorem loopWrites_id3 (fmt : String) (decode : Bytes → Option Bytes) :
    ∀ msgs : List Bytes, (∀ m ∈ msgs, m.take 3 = idSig) →
      loopWrites (receiveLoop fmt decode
          (msgs.map (fun b => RxEvent.msg (InMsg.binary b))))
        = msgs.map (fun m => ("response.mp3", m)) := by
  intro msgs
  induction msgs with
  | nil => intro _; rfl
  | cons m ms ih =>
      intro h
      have hd := detected_format_of_take_id3 m (h m (by simp))
      have hmp : (classify fmt m).is_mp3 = true := classify_detected_mp3 fmt m hd
      have ihh := ih (fun x hx => h x (List.mem_cons_of_mem _ hx))
      simp only [List.map_cons]
      rw [show receiveLoop fmt decode
            (RxEvent.msg (InMsg.binary m)
              :: ms.map (fun b => RxEvent.msg (InMsg.binary b)))
          = { steps := receiveStep fmt decode (InMsg.binary m)
                :: (receiveLoop fmt decode
                    (ms.map (fun b => RxEvent.msg (InMsg.binary b)))).steps,
              stopSet := (receiveLoop fmt decode
                  (ms.map (fun b => RxEvent.msg (InMsg.binary b)))).stopSet }
          from by simp [receiveLoop, receiveStep]]
      simp only [loopWrites, List.foldr_cons] at ihh ⊢
      rw [ihh]
      simp [receiveStep, handleBinary, hmp]

/-- Folding truncating writes of the same name: the file ends up holding
exactly the content of the last write. -/
theorem fsAfter_truncating (name : String) :
    ∀ (msgs : List Bytes) (fs0 : String → Option Bytes), msgs ≠ [] →
      ((msgs.map (fun m => (name, m))).foldl applyWrite fs0) name
        = msgs.getLast? := by
  intro msgs
  induction msgs with
  | nil => intro fs0 h; exact absurd rfl h
  | cons m ms ih =>
      intro fs0 _
      cases ms with
      | nil => simp [applyWrite, List.getLast?]
      | cons m2 ms2 =>
          rw [List.map_cons, List.foldl_cons,
            ih (applyWrite fs0 (name, m)) (by simp),
            List.getLast?_cons_cons]

/-- C9: every binary message classified MP3 is written to the single
fixed path `response.mp3` in truncating (`"wb"`) mode, so after a session
whose binary messages all carry the ID3 marker, the persisted file
contains exactly the most recent chunk — `getLast?` of the arrivals, not
their concatenation. -/
theorem claim_C9 (fmt : String) (decode : Bytes → Option Bytes)
    (msgs : List Bytes) (h : ∀ m ∈ msgs, m.take 3 = idSig) :
    fsAfter (loopWrites (receiveLoop fmt decode
        (msgs.map (fun b => RxEvent.msg (InMsg.binary b))))) "response.mp3"
      = msgs.getLast? := by
  rw [loopWrites_id3 fmt decode msgs h]
  cases msgs with
  | nil => rfl
  | cons m ms =>
      exact fsAfter_truncating "response.mp3" (m :: ms) (fun _ => none) (by simp)

/-- Witness for C9: two ID3 chunks arrive; the persisted `response.mp3`
is the second chunk alone. -/
theorem claim_C9_witness :
    (∀ m ∈ [[0x49, 0x44, 0x33, 1], [0x49, 0x44, 0x33, 2]],
        List.take 3 m = idSig) ∧
    fsAfter (loopWrites (receiveLoop "mp3" (fun _ => none)
        ([[0x49, 0x44, 0x33, 1], [0x49, 0x44, 0x33, 2]].map
          (fun b => RxEvent.msg (InMsg.binary b))))) "response.mp3"
      = some [0x49, 0x44, 0x33, 2] := by
  refine ⟨by decide, ?_⟩
  exact (claim_C9 "mp3" (fun _ => none)
      [[0x49, 0x44, 0x33, 1], [0x49, 0x44, 0x33, 2]] (by decide)).trans (by decide)

end RobotClient
